import Mathlib

/-!
# EarthMC pixel tracker — verification of the data-handling core

Shallow embedding of the data model and operations of the EarthMC tracker
dashboard, translated from the TypeScript sources (`src/lib/dataStorage.ts`,
the `TownBrowser` / `PlayerLookup` / `ServerStatus` components, the gist-backed
storage helper, and the scheduled gist-update workflow), together with theorems
about the stated properties of that code.

Modelling conventions:
* ISO `YYYY-MM-DD` date strings are modelled as integer day numbers; for
  well-formed ISO dates, string equality and lexicographic order coincide with
  equality and chronological order of the day numbers, so `===` on the strings
  becomes `=` on `Int` and both the JS comparator
  `new Date(a.date).getTime() - new Date(b.date).getTime()` and jq's
  `sort_by(.date)` become an ascending sort by the `date` field.
* ISO timestamp strings (`lastUpdated`, `Date.now()`) are modelled as integer
  milliseconds since the epoch.
* JavaScript's stable `Array.prototype.sort` with an ascending comparator is
  modelled by `List.insertionSort`, which is also stable.
* `Array.prototype.slice(-30)` is modelled by `l.drop (l.length - 30)` — on
  lists of at most 30 elements the truncated subtraction gives `drop 0`,
  exactly as `slice(-30)` returns the whole array.
* Fallible effects (`fetch`, `JSON.parse`, `localStorage`) are modelled by
  explicit outcome values (`Option`, `FetchResult`) passed to pure functions.
-/

/-- One daily snapshot (`DailyStats` in `src/lib/dataStorage.ts` and in the
gist-backed helper). -/
structure DailyStats where
  date : Int
  residents : Int
  towns : Int
  nations : Int
  onlinePlayers : Int
deriving DecidableEq, Repr

/-- The stored history document (`HistoricalData`): `{lastUpdated, stats}`. -/
structure HistoricalData where
  lastUpdated : Int
  stats : List DailyStats
deriving DecidableEq, Repr

/-- The argument of `saveToday`: `Omit<DailyStats, 'date'>`. -/
structure StatsInput where
  residents : Int
  towns : Int
  nations : Int
  onlinePlayers : Int
deriving DecidableEq, Repr

/-- Ascending-by-date ordering used by the `.sort((a, b) => new Date(a.date)
.getTime() - new Date(b.date).getTime())` calls and by jq's `sort_by(.date)`. -/
def dateLe (a b : DailyStats) : Prop := a.date ≤ b.date

instance : DecidableRel dateLe := fun a b => inferInstanceAs (Decidable (a.date ≤ b.date))

instance : IsTotal DailyStats dateLe := ⟨fun a b => Int.le_total a.date b.date⟩

instance : IsTrans DailyStats dateLe := ⟨fun _ _ _ => Int.le_trans⟩

/-- The dates of a stored stats array, in order. -/
def datesOf (l : List DailyStats) : List Int := l.map (fun s => s.date)

/-- The record built by `saveToday` from today's date and the input stats. -/
def mkToday (today : Int) (stats : StatsInput) : DailyStats :=
  { date := today, residents := stats.residents, towns := stats.towns,
    nations := stats.nations, onlinePlayers := stats.onlinePlayers }

/-- The `findIndex`-then-`set`-or-`push` step shared by `saveToday` and
`saveToLocalStorage`: replace the first entry whose date equals `e.date` by
`e`, or append `e` when there is none. -/
def upsertFirst (e : DailyStats) (l : List DailyStats) : List DailyStats :=
  match l.findIdx? (fun s => s.date == e.date) with
  | some todayIndex => l.set todayIndex e
  | none => l ++ [e]

/-- The `sort`-then-`slice(-30)` step shared by all three storage variants. -/
def sortTrim30 (l : List DailyStats) : List DailyStats :=
  let sorted := List.insertionSort dateLe l
  sorted.drop (sorted.length - 30)

namespace DataStorage

/-- Function `saveToday` from `src/lib/dataStorage.ts` (success path of the `try`):
upsert today's entry, sort ascending by date, keep the last 30 days, and stamp
`lastUpdated` with the current time. -/
def saveToday (today now : Int) (stats : StatsInput) (existing : HistoricalData) :
    HistoricalData :=
  let newStats : DailyStats :=
    { date := today, residents := stats.residents, towns := stats.towns,
      nations := stats.nations, onlinePlayers := stats.onlinePlayers }
  let updated :=
    match existing.stats.findIdx? (fun s => s.date == today) with
    | some todayIndex => existing.stats.set todayIndex newStats
    | none => existing.stats ++ [newStats]
  let sorted := List.insertionSort dateLe updated
  { lastUpdated := now, stats := sorted.drop (sorted.length - 30) }

/-- Function `getHistoricalData` from `src/lib/dataStorage.ts`. The storage cell is an
`Option String` (`localStorage.getItem`), and `JSON.parse` together with the
implicit cast to `HistoricalData` is an abstract `parse : String → Option
HistoricalData` whose `none` case models a thrown parse error. An empty stored
string is falsy in JS, so it also falls through to the empty structure. -/
def getHistoricalData (now : Int) (stored : Option String)
    (parse : String → Option HistoricalData) : HistoricalData :=
  match stored with
  | some s =>
    if s = "" then { lastUpdated := now, stats := [] }
    else
      match parse s with
      | some d => d
      | none => { lastUpdated := now, stats := [] }
  | none => { lastUpdated := now, stats := [] }

/-- Function `getLast7Days` from `src/lib/dataStorage.ts`, applied to the loaded data:
the loop runs `i = 6, 5, …, 0` and pushes the first stored entry dated
`today - i`, or `null`. -/
def getLast7Days (today : Int) (data : HistoricalData) : List (Option DailyStats) :=
  (List.range 7).map (fun (k : Nat) =>
    data.stats.find? (fun s => s.date == today - (6 - (k : Int))))

/-- Function `shouldSaveToday` from `src/lib/dataStorage.ts`: save when there is no
entry for today, otherwise only when `lastUpdated` is older than one hour. -/
def shouldSaveToday (today nowMs : Int) (data : HistoricalData) : Bool :=
  match data.stats.find? (fun s => s.date == today) with
  | none => true
  | some _ => decide (data.lastUpdated < nowMs - 60 * 60 * 1000)

end DataStorage

namespace GistStorage

/-- Function `saveToLocalStorage` from the gist-backed storage helper: same
upsert / sort / keep-last-30 steps as `DataStorage.saveToday`, but on a bare
stats array and keyed by the date carried in the entry itself. -/
def saveToLocalStorage (stats : DailyStats) (existing : List DailyStats) :
    List DailyStats :=
  let updated :=
    match existing.findIdx? (fun s => s.date == stats.date) with
    | some todayIndex => existing.set todayIndex stats
    | none => existing ++ [stats]
  let sorted := List.insertionSort dateLe updated
  sorted.drop (sorted.length - 30)

/-- Function `getLast7DaysLocal` from the gist-backed storage helper (the localStorage
fallback): identical loop to `DataStorage.getLast7Days` over a bare array. -/
def getLast7DaysLocal (today : Int) (data : List DailyStats) :
    List (Option DailyStats) :=
  (List.range 7).map (fun (k : Nat) =>
    data.find? (fun s => s.date == today - (6 - (k : Int))))

end GistStorage

/-- The `Update Stats Data` step of the scheduled workflow (the jq filter):
stamp `lastUpdated`, drop every existing entry for the snapshot date, append
one entry with the fetched values, sort by date and keep the last 30. -/
def updateStatsData (date residents towns nations online : Int) (timestamp : Int)
    (doc : HistoricalData) : HistoricalData :=
  let removed := doc.stats.filter (fun s => s.date != date)
  let appended := removed ++
    [{ date := date, residents := residents, towns := towns, nations := nations,
       onlinePlayers := online }]
  let sorted := List.insertionSort dateLe appended
  { lastUpdated := timestamp, stats := sorted.drop (sorted.length - 30) }

/-! ## Town browser (filter / sort / render) -/

/-- A town's spawn location, from the `Town` interface of the town browser. -/
structure Location where
  x : Int
  z : Int
deriving DecidableEq, Repr

/-- The `Town` interface of the town browser screen. The upstream JSON is
loosely typed: `balance` may be absent (`undefined`/`null`), which the code
papers over with `balance || 0` and an explicit `undefined`/`null` check in
`formatBalance`, so it is modelled as `Option Int`. -/
structure Town where
  name : String
  mayor : String
  nation : String
  residents : List String
  balance : Option Int
  chunks : Int
  location : Location
deriving DecidableEq, Repr

/-- Test whether `sub` occurs at the start of `l` (the inner step of JS `String.includes`). -/
def segStartsAt : List Char → List Char → Bool
  | [], _ => true
  | _ :: _, [] => false
  | a :: as, b :: bs => a == b && segStartsAt as bs

/-- Test whether `sub` occurs contiguously somewhere in `l` (JS `String.includes`). -/
def hasSegment (sub : List Char) : List Char → Bool
  | [] => sub.isEmpty
  | b :: bs => segStartsAt sub (b :: bs) || hasSegment sub bs

/-- Character list of `s` lowercased (JS `s.toLowerCase()`). -/
def toLowerChars (s : String) : List Char := s.toList.map Char.toLower

/-- JS `s.toLowerCase().includes(q.toLowerCase())`. -/
def jsIncludes (s q : String) : Bool := hasSegment (toLowerChars q) (toLowerChars s)

/-- The search predicate of the town browser's filter effect:
name, mayor or nation contains the search term, case-insensitively. -/
def townMatchesSearch (t : Town) (searchTerm : String) : Bool :=
  jsIncludes t.name searchTerm || jsIncludes t.mayor searchTerm ||
    jsIncludes t.nation searchTerm

/-- The `sortBy` state of the town browser: `'name' | 'balance' | 'residents'`. -/
inductive TownSortKey where
  | name
  | balance
  | residents
deriving DecidableEq, Repr

/-- The comparator of the town browser's sort, as the ordering it sorts into:
ascending by name (`localeCompare`), descending by `balance || 0`, or
descending by resident count. -/
def townSortRel : TownSortKey → Town → Town → Prop
  | .name, a, b => a.name ≤ b.name
  | .balance, a, b => b.balance.getD 0 ≤ a.balance.getD 0
  | .residents, a, b => b.residents.length ≤ a.residents.length

instance (k : TownSortKey) : DecidableRel (townSortRel k) := fun a b =>
  match k with
  | .name => inferInstanceAs (Decidable (a.name ≤ b.name))
  | .balance => inferInstanceAs (Decidable (_ ≤ _))
  | .residents => inferInstanceAs (Decidable (_ ≤ _))

instance (k : TownSortKey) : IsTotal Town (townSortRel k) :=
  ⟨fun a b =>
    match k with
    | .name => le_total a.name b.name
    | .balance => le_total (b.balance.getD 0) (a.balance.getD 0)
    | .residents => Nat.le_total b.residents.length a.residents.length⟩

instance (k : TownSortKey) : IsTrans Town (townSortRel k) :=
  ⟨fun _ _ _ =>
    match k with
    | .name => fun h h' => le_trans h h'
    | .balance => fun h h' => le_trans h' h
    | .residents => fun h h' => Nat.le_trans h' h⟩

/-- The filter/sort effect of the town browser: filter by the search term,
then (when a specific nation is selected) by nation equality, then sort by the
chosen key. -/
def filterAndSortTowns (towns : List Town) (searchTerm selectedNation : String)
    (sortBy : TownSortKey) : List Town :=
  let filtered := towns.filter (fun t => townMatchesSearch t searchTerm)
  let filtered :=
    if selectedNation ≠ "all" then
      filtered.filter (fun t => t.nation == selectedNation)
    else filtered
  List.insertionSort (townSortRel sortBy) filtered

/-- Insert a thousands separator after every third digit, counting from the
right; the input is the digit run in reverse order. -/
def groupThousandsRev : List Char → List Char
  | a :: b :: c :: d :: rest => a :: b :: c :: ',' :: groupThousandsRev (d :: rest)
  | l => l

/-- JS `Number.prototype.toLocaleString()` on an integer in the default
`en-US` locale: decimal digits with a comma every three digits. -/
def toLocaleString (n : Int) : String :=
  let digits := (toString n.natAbs).toList
  (if n < 0 then ("-") else "") ++ String.mk ((groupThousandsRev digits.reverse).reverse)

/-- Function `formatBalance` of the town browser: `'$0'` for `undefined`/`null`,
otherwise the dollar-prefixed localized number. -/
def formatBalance (balance : Option Int) : String :=
  match balance with
  | none => "$0"
  | some b => "$" ++ toLocaleString b

/-! ## Render-time defaults of the richest-towns list -/

/-- JS `town.mayor || 'Unknown'`: a missing or empty mayor renders as
`'Unknown'` (the empty string is falsy). -/
def mayorOrUnknown (mayor : Option String) : String :=
  match mayor with
  | some m => if m = "" then ("Unknown") else m
  | none => "Unknown"

/-- JS `town.balance || 0`: a missing balance renders as `0` (`0` itself is
falsy, but `0 || 0` is again `0`, so `getD` agrees). -/
def balanceOrZero (balance : Option Int) : Int := balance.getD 0

/-- JS `town.residents?.length || 0`: a missing residents array renders as a
count of `0`. -/
def residentsCountOrZero (residents : Option (List String)) : Nat :=
  match residents with
  | some l => l.length
  | none => 0

/-! ## Fetch outcomes and per-screen error handling -/

/-- A JavaScript exception caught by the screens' `catch` blocks: either a
`TypeError` (what `fetch` throws on a network failure) or a plain `Error`. -/
inductive JsException where
  | typeError (message : String)
  | jsError (message : String)
deriving DecidableEq, Repr

/-- The `.message` of a caught exception. -/
def JsException.message : JsException → String
  | .typeError m => m
  | .jsError m => m

/-- The outcome of one `await fetch(...)` (plus `await response.json()`):
either the promise chain threw, or an HTTP response with a status code and an
already-parsed body arrived. `response.ok` is `200 ≤ status ≤ 299`. -/
inductive FetchResult (α : Type) where
  | thrown (e : JsException)
  | response (status : Nat) (body : α)
deriving DecidableEq, Repr

/-- Value of `response.ok` for a modelled outcome; a thrown outcome has no response. -/
def FetchResult.isOk : FetchResult α → Bool
  | .thrown _ => false
  | .response status _ => 200 ≤ status && status ≤ 299

/-- The outcome is a network failure or a non-ok response. -/
def FetchResult.isFailure (r : FetchResult α) : Prop := r.isOk = false

instance : DecidablePred (FetchResult.isFailure (α := α)) := fun r =>
  inferInstanceAs (Decidable (r.isOk = false))

/-- The component-local state of the town browser screen. -/
structure TownBrowserState where
  towns : List Town
  filteredTowns : List Town
  loading : Bool
  error : Option String
deriving DecidableEq, Repr

/-- The `useState` initial values of the town browser. -/
def initialTownBrowserState : TownBrowserState :=
  { towns := [], filteredTowns := [], loading := true, error := none }

/-- Function `fetchTowns` of the town browser, as a transition on component state
driven by the fetch outcome: a non-ok response throws
`'Failed to fetch towns data'`; every caught error lands in `error` as its
message string; `loading` is reset in the `finally`; the towns arrays are only
written on success. -/
def fetchTowns (outcome : FetchResult (List Town)) (s : TownBrowserState) :
    TownBrowserState :=
  match outcome with
  | .thrown e => { s with loading := false, error := some e.message }
  | .response status body =>
    if 200 ≤ status ∧ status ≤ 299 then
      { towns := body, filteredTowns := body, loading := false, error := none }
    else
      { s with loading := false, error := some ("Failed to fetch towns data") }

/-- A `{name, uuid}` reference used for a player's town and nation. -/
structure NamedRef where
  name : String
  uuid : String
deriving DecidableEq, Repr

/-- The `timestamps` block of the `PlayerData` interface. -/
structure PlayerTimestamps where
  registered : Int
  joinedTownAt : Option Int
  lastOnline : Option Int
deriving DecidableEq, Repr

/-- The `status` block of the `PlayerData` interface. -/
structure PlayerStatus where
  isOnline : Bool
  isNPC : Bool
  isMayor : Bool
  isKing : Bool
  hasTown : Bool
  hasNation : Bool
deriving DecidableEq, Repr

/-- The `stats` block of the `PlayerData` interface. -/
structure PlayerStats where
  balance : Int
  numFriends : Int
deriving DecidableEq, Repr

/-- The `ranks` block of the `PlayerData` interface. -/
structure PlayerRanks where
  townRanks : List String
  nationRanks : List String
deriving DecidableEq, Repr

/-- The `PlayerData` interface of the player lookup screen. -/
structure PlayerData where
  name : String
  uuid : String
  title : Option String
  surname : Option String
  formattedName : Option String
  about : Option String
  town : Option NamedRef
  nation : Option NamedRef
  timestamps : PlayerTimestamps
  status : PlayerStatus
  stats : PlayerStats
  ranks : PlayerRanks
deriving DecidableEq, Repr

/-- The component-local state of the player lookup screen. -/
structure PlayerLookupState where
  searchTerm : String
  playerData : Option PlayerData
  loading : Bool
  error : Option String
  hasSearched : Bool
deriving DecidableEq, Repr

/-- JS `String.prototype.trim()`, as the trimmed character list. -/
def jsTrim (s : String) : List Char :=
  ((s.toList.dropWhile Char.isWhitespace).reverse.dropWhile Char.isWhitespace).reverse

/-- Function `searchPlayer` of the player lookup screen as a state transition driven by
the fetch outcome. An empty (trimmed) search term returns before fetching.
Otherwise the handler clears `playerData`, marks the search, and then: a 404
response throws `'Player not found'`, any other non-ok response throws
`'API request failed with status N'`, an empty result list throws
`'Player not found'`, and the first result is stored on success. The `catch`
turns a network `TypeError` with message `'Failed to fetch'` into a dedicated
banner message and stores every other error's message; `finally` stops the
spinner. -/
def searchPlayer (outcome : FetchResult (List PlayerData)) (s : PlayerLookupState) :
    PlayerLookupState :=
  if jsTrim s.searchTerm = [] then s
  else
    match outcome with
    | .thrown e =>
      { s with
        playerData := none, hasSearched := true, loading := false,
        error := some
          (match e with
           | .typeError msg =>
             if msg = "Failed to fetch" then
               "Network error - please check your connection and try again"
             else msg
           | .jsError msg => msg) }
    | .response status body =>
      if 200 ≤ status ∧ status ≤ 299 then
        match body with
        | [] =>
          { s with playerData := none, hasSearched := true, loading := false,
                   error := some ("Player not found") }
        | p :: _ =>
          { s with playerData := some p, hasSearched := true, loading := false,
                   error := none }
      else if status = 404 then
        { s with playerData := none, hasSearched := true, loading := false,
                 error := some ("Player not found") }
      else
        { s with playerData := none, hasSearched := true, loading := false,
                 error := some ("API request failed with status " ++ toString status) }

/-! ## Interval timers of the server-status screen -/

/-- What a scheduled callback of the server-status screen does. -/
inductive TimerAction where
  | fetchServerData
  | updateClock
deriving DecidableEq, Repr

/-- One live interval timer: its handle, its period in milliseconds, and its
callback. -/
structure Timer where
  id : Nat
  intervalMs : Nat
  action : TimerAction
deriving DecidableEq, Repr

/-- The browser's set of live interval timers, with a fresh-handle counter. -/
structure SchedulerState where
  timers : List Timer
  nextId : Nat
deriving DecidableEq, Repr

/-- Model of `setInterval(action, ms)`: registers a timer and returns its handle. -/
def setIntervalTimer (action : TimerAction) (ms : Nat) (s : SchedulerState) :
    Nat × SchedulerState :=
  (s.nextId,
   { timers := s.timers ++ [{ id := s.nextId, intervalMs := ms, action := action }],
     nextId := s.nextId + 1 })

/-- Model of `clearInterval(id)`: removes the timer with that handle. -/
def clearIntervalTimer (id : Nat) (s : SchedulerState) : SchedulerState :=
  { s with timers := s.timers.filter (fun t => t.id ≠ id) }

/-- The two mount effects of the server-status screen:
`setInterval(fetchServerData, 5 * 60 * 1000)` and the 1-second clock tick.
Returns the two handles the effects' cleanups capture. -/
def mountServerStatus (s : SchedulerState) : (Nat × Nat) × SchedulerState :=
  let fetchTimer := setIntervalTimer .fetchServerData (5 * 60 * 1000) s
  let clockTimer := setIntervalTimer .updateClock 1000 fetchTimer.2
  ((fetchTimer.1, clockTimer.1), clockTimer.2)

/-- The two unmount cleanups of the server-status screen:
`clearInterval` on each captured handle. -/
def unmountServerStatus (ids : Nat × Nat) (s : SchedulerState) : SchedulerState :=
  clearIntervalTimer ids.2 (clearIntervalTimer ids.1 s)

/-! ## Lemmas about the shared upsert step -/

theorem upsertFirst_nil (e : DailyStats) : upsertFirst e [] = [e] := rfl

theorem upsertFirst_cons (e a : DailyStats) (l : List DailyStats) :
    upsertFirst e (a :: l) =
      if a.date = e.date then e :: l else a :: upsertFirst e l := by
  unfold upsertFirst
  rw [List.findIdx?_cons]
  by_cases h : a.date = e.date
  · simp [h]
  · rw [if_neg h, if_neg (by simpa using h), List.findIdx?_succ]
    cases hfi : l.findIdx? (fun s => s.date == e.date) with
    | none => simp [hfi]
    | some i => simp [hfi]

theorem mem_upsertFirst {e x : DailyStats} {l : List DailyStats}
    (hx : x ∈ upsertFirst e l) : x = e ∨ x ∈ l := by
  induction l with
  | nil => simpa [upsertFirst_nil] using hx
  | cons a l ih =>
    rw [upsertFirst_cons] at hx
    by_cases h : a.date = e.date
    · rw [if_pos h] at hx
      rcases List.mem_cons.mp hx with h' | h'
      · exact Or.inl h'
      · exact Or.inr (List.mem_cons_of_mem _ h')
    · rw [if_neg h] at hx
      rcases List.mem_cons.mp hx with h' | h'
      · exact Or.inr (h' ▸ List.mem_cons_self _ _)
      · rcases ih h' with h'' | h''
        · exact Or.inl h''
        · exact Or.inr (List.mem_cons_of_mem _ h'')

theorem upsertFirst_of_forall_ne {e : DailyStats} {l : List DailyStats}
    (h : ∀ x ∈ l, x.date ≠ e.date) : upsertFirst e l = l ++ [e] := by
  induction l with
  | nil => simp [upsertFirst_nil]
  | cons a l ih =>
    rw [upsertFirst_cons, if_neg (h a (List.mem_cons_self _ _))]
    rw [ih (fun x hx => h x (List.mem_cons_of_mem _ hx))]
    simp

theorem datesOf_upsertFirst_of_mem {e : DailyStats} {l : List DailyStats}
    (h : ∃ x ∈ l, x.date = e.date) : datesOf (upsertFirst e l) = datesOf l := by
  induction l with
  | nil => simp at h
  | cons a l ih =>
    rw [upsertFirst_cons]
    by_cases ha : a.date = e.date
    · rw [if_pos ha]
      simp [datesOf, ha]
    · rw [if_neg ha]
      have h' : ∃ x ∈ l, x.date = e.date := by
        rcases h with ⟨x, hx, hxd⟩
        rcases List.mem_cons.mp hx with rfl | hx'
        · exact absurd hxd ha
        · exact ⟨x, hx', hxd⟩
      show a.date :: datesOf (upsertFirst e l) = a.date :: datesOf l
      rw [ih h']

theorem countP_date_eq_zero {d : Int} {l : List DailyStats}
    (h : ∀ x ∈ l, x.date ≠ d) : l.countP (fun s => s.date == d) = 0 :=
  List.countP_eq_zero.mpr (by simpa using h)

theorem countP_date_le_one {d : Int} {l : List DailyStats}
    (h : (datesOf l).Nodup) : l.countP (fun s => s.date == d) ≤ 1 := by
  induction l with
  | nil => simp
  | cons a l ih =>
    have hnd : a.date ∉ datesOf l ∧ (datesOf l).Nodup := by
      simpa [datesOf] using h
    rw [List.countP_cons]
    by_cases ha : a.date = d
    · have hz : l.countP (fun s => s.date == d) = 0 := by
        apply countP_date_eq_zero
        intro x hx hxd
        exact hnd.1 (List.mem_map.mpr ⟨x, hx, hxd.trans ha.symm⟩)
      simp [hz, ha]
    · simpa [ha] using ih hnd.2

theorem countP_date_upsertFirst {e : DailyStats} {l : List DailyStats}
    (h : (datesOf l).Nodup) :
    (upsertFirst e l).countP (fun s => s.date == e.date) = 1 := by
  by_cases hx : ∃ x ∈ l, x.date = e.date
  · have hd := datesOf_upsertFirst_of_mem hx
    have hcnt :
        (upsertFirst e l).countP (fun s => s.date == e.date) =
          l.countP (fun s => s.date == e.date) := by
      have h1 := List.countP_map (fun x => x == e.date) (fun s : DailyStats => s.date)
        (upsertFirst e l)
      have h2 := List.countP_map (fun x => x == e.date) (fun s : DailyStats => s.date) l
      have : List.countP (fun x => x == e.date) (datesOf (upsertFirst e l)) =
          List.countP (fun x => x == e.date) (datesOf l) := by rw [hd]
      simpa [datesOf, Function.comp] using (h1.symm.trans this).trans h2
    rw [hcnt]
    have hle := countP_date_le_one (d := e.date) h
    have hpos : 0 < l.countP (fun s => s.date == e.date) :=
      List.countP_pos_iff.mpr (by
        rcases hx with ⟨x, hxl, hxd⟩
        exact ⟨x, hxl, by simpa using hxd⟩)
    omega
  · push_neg at hx
    rw [upsertFirst_of_forall_ne hx, List.countP_append]
    rw [countP_date_eq_zero hx]
    simp

theorem datesOf_nodup_upsertFirst {e : DailyStats} {l : List DailyStats}
    (h : (datesOf l).Nodup) : (datesOf (upsertFirst e l)).Nodup := by
  by_cases hx : ∃ x ∈ l, x.date = e.date
  · rw [datesOf_upsertFirst_of_mem hx]; exact h
  · push_neg at hx
    rw [upsertFirst_of_forall_ne hx]
    have : datesOf (l ++ [e]) = datesOf l ++ [e.date] := by simp [datesOf]
    rw [this, List.nodup_append]
    exact ⟨h, List.nodup_singleton _, by
      intro a ha hae
      rcases List.mem_map.mp ha with ⟨x, hxl, hxd⟩
      have : a = e.date := by simpa using hae
      exact hx x hxl (hxd.trans this)⟩

theorem mem_date_upsertFirst {e x : DailyStats} {l : List DailyStats}
    (h : (datesOf l).Nodup) (hx : x ∈ upsertFirst e l) (hd : x.date = e.date) :
    x = e := by
  induction l with
  | nil => simpa [upsertFirst_nil] using hx
  | cons a l ih =>
    have hnd : a.date ∉ datesOf l ∧ (datesOf l).Nodup := by
      simpa [datesOf] using h
    rw [upsertFirst_cons] at hx
    by_cases ha : a.date = e.date
    · rw [if_pos ha] at hx
      rcases List.mem_cons.mp hx with h' | h'
      · exact h'
      · exact absurd (List.mem_map.mpr ⟨x, h', hd.trans ha.symm⟩) hnd.1
    · rw [if_neg ha] at hx
      rcases List.mem_cons.mp hx with h' | h'
      · exact absurd (h' ▸ hd) ha
      · exact ih hnd.2 h'

/-! ## Lemmas about the shared sort-and-keep-last-30 step -/

theorem sortTrim30_eq (l : List DailyStats) :
    sortTrim30 l =
      (List.insertionSort dateLe l).drop ((List.insertionSort dateLe l).length - 30) :=
  rfl

theorem sortTrim30_sorted (l : List DailyStats) :
    List.Sorted dateLe (sortTrim30 l) :=
  List.Pairwise.sublist (List.drop_sublist _ _) (List.sorted_insertionSort dateLe l)

theorem sortTrim30_length (l : List DailyStats) :
    (sortTrim30 l).length = min 30 l.length := by
  rw [sortTrim30_eq, List.length_drop,
    (List.perm_insertionSort dateLe l).length_eq]
  omega

theorem sortTrim30_subset {x : DailyStats} {l : List DailyStats}
    (hx : x ∈ sortTrim30 l) : x ∈ l := by
  rw [sortTrim30_eq] at hx
  exact (List.perm_insertionSort dateLe l).mem_iff.mp
    ((List.drop_sublist _ _).mem hx)

theorem sortTrim30_nodup_dates {l : List DailyStats}
    (h : (datesOf l).Nodup) : (datesOf (sortTrim30 l)).Nodup := by
  have hperm : List.Perm (datesOf (List.insertionSort dateLe l)) (datesOf l) :=
    (List.perm_insertionSort dateLe l).map _
  have hnd : (datesOf (List.insertionSort dateLe l)).Nodup := hperm.nodup_iff.mpr h
  have hsub : List.Sublist (datesOf (sortTrim30 l))
      (datesOf (List.insertionSort dateLe l)) := by
    rw [sortTrim30_eq]
    exact (List.drop_sublist _ _).map _
  exact hsub.nodup hnd

theorem sortTrim30_of_length_le {l : List DailyStats} (h : l.length ≤ 30) :
    sortTrim30 l = List.insertionSort dateLe l := by
  rw [sortTrim30_eq, (List.perm_insertionSort dateLe l).length_eq]
  rw [Nat.sub_eq_zero_of_le h, List.drop_zero]

theorem sortTrim30_countP_eq_one {d : Int} {l : List DailyStats}
    (h1 : l.countP (fun s => s.date == d) = 1)
    (h2 : ∀ x ∈ l, x.date ≤ d) :
    (sortTrim30 l).countP (fun s => s.date == d) = 1 := by
  set L := List.insertionSort dateLe l with hL
  set k := L.length - 30 with hk
  have hperm : List.Perm L l := List.perm_insertionSort dateLe l
  have hcL : L.countP (fun s => s.date == d) = 1 := hperm.countP_eq _ ▸ h1
  have hmemL : ∀ x ∈ L, x.date ≤ d := fun x hx => h2 x (hperm.mem_iff.mp hx)
  have hsplit : L.take k ++ L.drop k = L := List.take_append_drop k L
  have hcsplit :
      (L.take k).countP (fun s => s.date == d) +
        (L.drop k).countP (fun s => s.date == d) = 1 := by
    rw [← List.countP_append, hsplit]; exact hcL
  have hdropne : L.drop k ≠ [] := by
    have hlen : l ≠ [] := by
      intro hnil
      rw [hnil] at h1
      simp at h1
    have hlen1 : 1 ≤ L.length := by
      rw [hperm.length_eq]
      exact List.length_pos.mpr hlen
    have : (L.drop k).length = L.length - k := List.length_drop _ _
    intro hnil
    rw [hnil] at this
    simp at this
    omega
  have htake0 : (L.take k).countP (fun s => s.date == d) = 0 := by
    by_contra htk
    have htkpos : 0 < (L.take k).countP (fun s => s.date == d) := Nat.pos_of_ne_zero htk
    rcases List.countP_pos_iff.mp htkpos with ⟨x, hxtk, hxd⟩
    have hxd' : x.date = d := by simpa using hxd
    rcases List.exists_mem_of_ne_nil _ hdropne with ⟨y, hydrop⟩
    have hsorted : List.Pairwise dateLe (L.take k ++ L.drop k) := by
      rw [hsplit]
      exact List.sorted_insertionSort dateLe l
    have hxy : dateLe x y := (List.pairwise_append.mp hsorted).2.2 x hxtk y hydrop
    have hyd : y.date = d := by
      have hyL : y ∈ L := (List.drop_sublist _ _).mem hydrop
      have h1y : y.date ≤ d := hmemL y hyL
      have h2y : d ≤ y.date := hxd' ▸ hxy
      omega
    have hdpos : 0 < (L.drop k).countP (fun s => s.date == d) :=
      List.countP_pos_iff.mpr ⟨y, hydrop, by simpa using hyd⟩
    omega
  have : (sortTrim30 l).countP (fun s => s.date == d) =
      (L.drop k).countP (fun s => s.date == d) := rfl
  omega

/-! ## Equations relating the storage functions to the shared steps -/

theorem saveToday_eq (today now : Int) (stats : StatsInput) (existing : HistoricalData) :
    DataStorage.saveToday today now stats existing =
      { lastUpdated := now,
        stats := sortTrim30 (upsertFirst (mkToday today stats) existing.stats) } := rfl

theorem saveToLocalStorage_eq (stats : DailyStats) (existing : List DailyStats) :
    GistStorage.saveToLocalStorage stats existing =
      sortTrim30 (upsertFirst stats existing) := rfl

theorem updateStatsData_eq (date residents towns nations online timestamp : Int)
    (doc : HistoricalData) :
    updateStatsData date residents towns nations online timestamp doc =
      { lastUpdated := timestamp,
        stats := sortTrim30 (doc.stats.filter (fun s => s.date != date) ++
          [{ date := date, residents := residents, towns := towns,
             nations := nations, onlinePlayers := online }]) } := rfl

theorem sortTrim30_upsertFirst_invariants (e : DailyStats) (l : List DailyStats)
    (h1 : (datesOf l).Nodup) (h2 : ∀ x ∈ l, x.date ≤ e.date) :
    (sortTrim30 (upsertFirst e l)).length ≤ 30 ∧
      (datesOf (sortTrim30 (upsertFirst e l))).Nodup ∧
      (sortTrim30 (upsertFirst e l)).countP (fun s => s.date == e.date) = 1 ∧
      List.Sorted dateLe (sortTrim30 (upsertFirst e l)) := by
  have hc : (upsertFirst e l).countP (fun s => s.date == e.date) = 1 :=
    countP_date_upsertFirst h1
  have hm : ∀ x ∈ upsertFirst e l, x.date ≤ e.date := by
    intro x hx
    rcases mem_upsertFirst hx with rfl | hx'
    · exact le_refl _
    · exact h2 x hx'
  refine ⟨?_, sortTrim30_nodup_dates (datesOf_nodup_upsertFirst h1),
    sortTrim30_countP_eq_one hc hm, sortTrim30_sorted _⟩
  rw [sortTrim30_length]
  omega

/-! ## Claim C1 -/

/-- C1 (amended): provided the prior stored stats contain at most one entry
per date and no entry dated after the day being saved, then after `saveToday`
completes successfully the stored stats array contains at most 30 entries,
at most one entry per date — in particular exactly one entry whose date is
today — and is sorted in ascending date order; the same holds for the
gist-variant `saveToLocalStorage`. -/
theorem saveToday_rolling_window_invariants
    (today now : Int) (input : StatsInput) (existing : HistoricalData)
    (e : DailyStats) (l : List DailyStats)
    (hnd : (datesOf existing.stats).Nodup)
    (hle : ∀ x ∈ existing.stats, x.date ≤ today)
    (hnd2 : (datesOf l).Nodup)
    (hle2 : ∀ x ∈ l, x.date ≤ e.date) :
    ((DataStorage.saveToday today now input existing).stats.length ≤ 30 ∧
      (datesOf (DataStorage.saveToday today now input existing).stats).Nodup ∧
      (DataStorage.saveToday today now input existing).stats.countP
        (fun s => s.date == today) = 1 ∧
      List.Sorted dateLe (DataStorage.saveToday today now input existing).stats) ∧
    ((GistStorage.saveToLocalStorage e l).length ≤ 30 ∧
      (datesOf (GistStorage.saveToLocalStorage e l)).Nodup ∧
      (GistStorage.saveToLocalStorage e l).countP (fun s => s.date == e.date) = 1 ∧
      List.Sorted dateLe (GistStorage.saveToLocalStorage e l)) := by
  constructor
  · have h := sortTrim30_upsertFirst_invariants (mkToday today input) existing.stats
      hnd hle
    rw [saveToday_eq]
    exact h
  · have h := sortTrim30_upsertFirst_invariants e l hnd2 hle2
    rw [saveToLocalStorage_eq]
    exact h

/-- Witness for C1's amended theorem at a concrete history. -/
theorem saveToday_rolling_window_invariants_witness :
    ((datesOf ({ lastUpdated := 0, stats := [⟨1, 2, 3, 4, 5⟩] } :
        HistoricalData).stats).Nodup ∧
      (∀ x ∈ ({ lastUpdated := 0, stats := [⟨1, 2, 3, 4, 5⟩] } :
        HistoricalData).stats, x.date ≤ 2) ∧
      (datesOf ([⟨1, 0, 0, 0, 0⟩] : List DailyStats)).Nodup ∧
      (∀ x ∈ ([⟨1, 0, 0, 0, 0⟩] : List DailyStats), x.date ≤ 3)) ∧
    (DataStorage.saveToday 2 99 ⟨7, 8, 9, 10⟩
        { lastUpdated := 0, stats := [⟨1, 2, 3, 4, 5⟩] }).stats.countP
      (fun s => s.date == 2) = 1 :=
  ⟨⟨by decide, by decide, by decide, by decide⟩,
    (saveToday_rolling_window_invariants 2 99 ⟨7, 8, 9, 10⟩
      { lastUpdated := 0, stats := [⟨1, 2, 3, 4, 5⟩] }
      ⟨3, 1, 1, 1, 1⟩ [⟨1, 0, 0, 0, 0⟩]
      (by decide) (by decide) (by decide) (by decide)).1.2.2.1⟩

/-- C1 counterexample, refuting the claim as stated for arbitrary prior
histories: a prior history that already holds two entries dated `5` still
holds both after `saveToday` (so "at most one entry per date" fails), and a
prior history of 30 entries all dated after today pushes today's entry out of
the 30-day window (so "exactly one entry whose date is today" fails). -/
theorem saveToday_claim_counterexample :
    (¬ (datesOf (DataStorage.saveToday 10 0 ⟨1, 1, 1, 1⟩
        { lastUpdated := 0,
          stats := [⟨5, 0, 0, 0, 0⟩, ⟨5, 0, 0, 0, 0⟩] }).stats).Nodup) ∧
    (DataStorage.saveToday 50 0 ⟨1, 1, 1, 1⟩
        { lastUpdated := 0,
          stats := (List.range 30).map
            (fun i => ⟨100 + (i : Int), 0, 0, 0, 0⟩) }).stats.countP
      (fun s => s.date == 50) = 0 := by
  constructor
  · decide
  · decide

/-! ## Claim C2 -/

/-- C2 (amended): for a stored history of at most 30 entries, with at most one
entry per date, that already contains an entry dated today, `saveToday`
replaces that entry in place with the new values rather than appending: the
number of stored entries is unchanged, an entry dated today is still present,
and every stored entry dated today carries exactly the stats of the most
recent call. -/
theorem saveToday_last_write_wins
    (today now : Int) (input : StatsInput) (existing : HistoricalData)
    (hmem : ∃ x ∈ existing.stats, x.date = today)
    (hnd : (datesOf existing.stats).Nodup)
    (hlen : existing.stats.length ≤ 30) :
    (DataStorage.saveToday today now input existing).stats.length =
      existing.stats.length ∧
    (∃ x ∈ (DataStorage.saveToday today now input existing).stats,
      x.date = today) ∧
    (∀ x ∈ (DataStorage.saveToday today now input existing).stats,
      x.date = today → x = mkToday today input) := by
  rw [saveToday_eq]
  set u := upsertFirst (mkToday today input) existing.stats with hu
  have hdates : datesOf u = datesOf existing.stats :=
    datesOf_upsertFirst_of_mem hmem
  have hulen : u.length = existing.stats.length := by
    have h := congrArg List.length hdates
    simpa [datesOf] using h
  have hnotrim : sortTrim30 u = List.insertionSort dateLe u :=
    sortTrim30_of_length_le (hulen ▸ hlen)
  have hperm : List.Perm (sortTrim30 u) u := by
    rw [hnotrim]
    exact List.perm_insertionSort dateLe u
  have hcnt : u.countP (fun s => s.date == today) = 1 :=
    countP_date_upsertFirst (e := mkToday today input) hnd
  refine ⟨?_, ?_, ?_⟩
  · rw [hperm.length_eq, hulen]
  · have h1 : (sortTrim30 u).countP (fun s => s.date == today) = 1 := by
      rw [hperm.countP_eq, hcnt]
    have hpos : 0 < (sortTrim30 u).countP (fun s => s.date == today) := by omega
    rcases List.countP_pos_iff.mp hpos with ⟨x, hx, hxd⟩
    exact ⟨x, hx, by simpa using hxd⟩
  · intro x hx hxd
    exact mem_date_upsertFirst hnd (hperm.mem_iff.mp hx) hxd

/-- Witness for C2's amended theorem at a concrete history. -/
theorem saveToday_last_write_wins_witness :
    ((∃ x ∈ ({ lastUpdated := 5, stats := [⟨3, 1, 1, 1, 1⟩, ⟨4, 2, 2, 2, 2⟩] } :
        HistoricalData).stats, x.date = 4) ∧
      (datesOf ({ lastUpdated := 5, stats := [⟨3, 1, 1, 1, 1⟩, ⟨4, 2, 2, 2, 2⟩] } :
        HistoricalData).stats).Nodup ∧
      ({ lastUpdated := 5, stats := [⟨3, 1, 1, 1, 1⟩, ⟨4, 2, 2, 2, 2⟩] } :
        HistoricalData).stats.length ≤ 30) ∧
    (DataStorage.saveToday 4 9 ⟨6, 7, 8, 9⟩
        { lastUpdated := 5, stats := [⟨3, 1, 1, 1, 1⟩, ⟨4, 2, 2, 2, 2⟩] }).stats.length =
      ({ lastUpdated := 5, stats := [⟨3, 1, 1, 1, 1⟩, ⟨4, 2, 2, 2, 2⟩] } :
        HistoricalData).stats.length :=
  ⟨⟨by decide, by decide, by decide⟩,
    (saveToday_last_write_wins 4 9 ⟨6, 7, 8, 9⟩
      { lastUpdated := 5, stats := [⟨3, 1, 1, 1, 1⟩, ⟨4, 2, 2, 2, 2⟩] }
      (by decide) (by decide) (by decide)).1⟩

/-- C2 counterexample, refuting the claim as stated for arbitrary stored
histories: a 31-entry history containing today shrinks to 30 entries (the
count is not unchanged), and a history holding two entries dated today keeps a
stale second entry, so the stored data for today does not all equal the stats
of the most recent call. -/
theorem saveToday_last_write_wins_counterexample :
    ((∃ x ∈ (List.range 31).map (fun i => (⟨(i : Int), 0, 0, 0, 0⟩ : DailyStats)),
        x.date = 30) ∧
      (DataStorage.saveToday 30 0 ⟨1, 1, 1, 1⟩
          { lastUpdated := 0,
            stats := (List.range 31).map
              (fun i => ⟨(i : Int), 0, 0, 0, 0⟩) }).stats.length ≠
        ((List.range 31).map (fun i => (⟨(i : Int), 0, 0, 0, 0⟩ : DailyStats))).length) ∧
    (∃ x ∈ (DataStorage.saveToday 7 0 ⟨1, 1, 1, 1⟩
        { lastUpdated := 0,
          stats := [⟨7, 2, 2, 2, 2⟩, ⟨7, 3, 3, 3, 3⟩] }).stats,
      x.date = 7 ∧ x ≠ mkToday 7 ⟨1, 1, 1, 1⟩) := by
  refine ⟨⟨?_, ?_⟩, ?_⟩
  · decide
  · decide
  · decide

/-! ## Claim C4 -/

/-- C4 (amended): provided no entry of the prior gist document is dated after
the snapshot date, the scheduled script's jq update produces a document whose
`lastUpdated` equals the fetch timestamp, whose stats array has every
pre-existing entry for the snapshot date removed and exactly one entry for
that date — carrying the fetched numeric values — is sorted by date, and is
truncated to the last 30 entries. -/
theorem updateStatsData_spec
    (date residents towns nations online timestamp : Int) (doc : HistoricalData)
    (h : ∀ x ∈ doc.stats, x.date ≤ date) :
    (updateStatsData date residents towns nations online timestamp doc).lastUpdated =
      timestamp ∧
    (updateStatsData date residents towns nations online timestamp doc).stats.countP
      (fun s => s.date == date) = 1 ∧
    (∀ x ∈ (updateStatsData date residents towns nations online timestamp doc).stats,
      x.date = date →
        x = { date := date, residents := residents, towns := towns,
              nations := nations, onlinePlayers := online }) ∧
    List.Sorted dateLe
      (updateStatsData date residents towns nations online timestamp doc).stats ∧
    (updateStatsData date residents towns nations online timestamp doc).stats.length =
      min 30 ((doc.stats.filter (fun s => s.date != date)).length + 1) := by
  rw [updateStatsData_eq]
  set E : DailyStats :=
    { date := date, residents := residents, towns := towns, nations := nations,
      onlinePlayers := online } with hE
  set app := doc.stats.filter (fun s => s.date != date) ++ [E] with happ
  have hfilter0 :
      (doc.stats.filter (fun s => s.date != date)).countP (fun s => s.date == date) = 0 := by
    apply countP_date_eq_zero
    intro x hx
    have := (List.mem_filter.mp hx).2
    simpa using this
  have hcnt : app.countP (fun s => s.date == date) = 1 := by
    rw [happ, List.countP_append, hfilter0]
    simp [hE]
  have hmemle : ∀ x ∈ app, x.date ≤ date := by
    intro x hx
    rcases List.mem_append.mp hx with hx' | hx'
    · exact h x (List.mem_filter.mp hx').1
    · have : x = E := by simpa using hx'
      rw [this, hE]
  refine ⟨rfl, sortTrim30_countP_eq_one hcnt hmemle, ?_, sortTrim30_sorted _, ?_⟩
  · intro x hx hxd
    rcases List.mem_append.mp (sortTrim30_subset hx) with hx' | hx'
    · have := (List.mem_filter.mp hx').2
      simp [hxd] at this
    · simpa using hx'
  · rw [sortTrim30_length, happ]
    simp

/-- Witness for C4's amended theorem at a concrete document. -/
theorem updateStatsData_spec_witness :
    (∀ x ∈ ({ lastUpdated := 3, stats := [⟨8, 1, 1, 1, 1⟩, ⟨9, 2, 2, 2, 2⟩] } :
      HistoricalData).stats, x.date ≤ 9) ∧
    (updateStatsData 9 5 6 7 8 77
        { lastUpdated := 3, stats := [⟨8, 1, 1, 1, 1⟩, ⟨9, 2, 2, 2, 2⟩] }).lastUpdated =
      77 :=
  ⟨by decide,
    (updateStatsData_spec 9 5 6 7 8 77
      { lastUpdated := 3, stats := [⟨8, 1, 1, 1, 1⟩, ⟨9, 2, 2, 2, 2⟩] }
      (by decide)).1⟩

/-- C4 counterexample, refuting the claim as stated for arbitrary prior
documents: against a document of 30 entries all dated after the snapshot
date, the sort-then-keep-last-30 step drops the freshly appended entry, so
the updated document holds no entry for the snapshot date at all. -/
theorem updateStatsData_claim_counterexample :
    (updateStatsData 50 1 1 1 1 0
        { lastUpdated := 0,
          stats := (List.range 30).map
            (fun i => ⟨100 + (i : Int), 0, 0, 0, 0⟩) }).stats.countP
      (fun s => s.date == 50) = 0 := by
  decide

/-! ## Claim C3 -/

/-- C3: `shouldSaveToday` returns true when the stored history has no entry
dated today, and otherwise returns true exactly when the stored `lastUpdated`
timestamp is more than one hour before the current time. -/
theorem shouldSaveToday_spec (today nowMs : Int) (data : HistoricalData) :
    DataStorage.shouldSaveToday today nowMs data = true ↔
      ((∀ x ∈ data.stats, x.date ≠ today) ∨
        data.lastUpdated < nowMs - 60 * 60 * 1000) := by
  unfold DataStorage.shouldSaveToday
  cases hf : data.stats.find? (fun s => s.date == today) with
  | none =>
    have hnone : ∀ x ∈ data.stats, x.date ≠ today := by
      intro x hx
      have := List.find?_eq_none.mp hf x hx
      simpa using this
    exact iff_of_true rfl (Or.inl hnone)
  | some y =>
    have hy : y.date = today := by simpa using List.find?_some hf
    have hmem : y ∈ data.stats := List.mem_of_find?_eq_some hf
    simp only [decide_eq_true_eq]
    constructor
    · intro h
      exact Or.inr h
    · rintro (h | h)
      · exact absurd hy (h y hmem)
      · exact h

/-! ## Claim C10 -/

/-- C10: `getHistoricalData` is total — for every storage state it returns a
`HistoricalData` value, and when the key is missing or the stored string fails
to parse it returns the empty structure with an empty stats array; otherwise
it returns exactly the parsed document (or, for the falsy empty string, again
the empty structure). -/
theorem getHistoricalData_total (now : Int) (stored : Option String)
    (parse : String → Option HistoricalData) :
    (stored = none →
      DataStorage.getHistoricalData now stored parse =
        { lastUpdated := now, stats := [] }) ∧
    (∀ s, stored = some s → parse s = none →
      DataStorage.getHistoricalData now stored parse =
        { lastUpdated := now, stats := [] }) ∧
    ((DataStorage.getHistoricalData now stored parse).stats = [] ∨
      ∃ s d, stored = some s ∧ parse s = some d ∧
        DataStorage.getHistoricalData now stored parse = d) := by
  refine ⟨?_, ?_, ?_⟩
  · rintro rfl
    rfl
  · rintro s rfl hp
    unfold DataStorage.getHistoricalData
    by_cases hs : s = ""
    · simp [hs]
    · simp [hs, hp]
  · cases stored with
    | none => exact Or.inl rfl
    | some s =>
      by_cases hs : s = ""
      · refine Or.inl ?_
        simp [DataStorage.getHistoricalData, hs]
      · cases hp : parse s with
        | none =>
          refine Or.inl ?_
          simp [DataStorage.getHistoricalData, hs, hp]
        | some d =>
          refine Or.inr ⟨s, d, rfl, hp, ?_⟩
          simp [DataStorage.getHistoricalData, hs, hp]

/-- Witness for C10 at a missing key and at an unparsable stored string. -/
theorem getHistoricalData_total_witness :
    ((none : Option String) = none ∧
      DataStorage.getHistoricalData 5 none (fun _ => none) =
        { lastUpdated := 5, stats := [] }) ∧
    ((some ("garbage") : Option String) = some ("garbage") ∧
      (fun _ : String => (none : Option HistoricalData)) "garbage" = none ∧
      DataStorage.getHistoricalData 5 (some ("garbage")) (fun _ => none) =
        { lastUpdated := 5, stats := [] }) :=
  ⟨⟨rfl, (getHistoricalData_total 5 none (fun _ => none)).1 rfl⟩,
    ⟨rfl, rfl,
      (getHistoricalData_total 5 (some ("garbage")) (fun _ => none)).2.1
        "garbage" rfl rfl⟩⟩

/-! ## Claim C9 -/

theorem getD_map_range {α : Type} (f : Nat → α) (d : α) (n j : Nat) (h : j < n) :
    ((List.range n).map f).getD j d = f j := by
  rw [List.getD_eq_getElem?_getD, List.getElem?_map, List.getElem?_range h]
  rfl

/-- C9: `getLast7Days` (and the gist variant's `getLast7DaysLocal`) returns
exactly 7 elements, in chronological order from six days ago up to today: the
`j`-th element is a stored entry dated `today - 6 + j` when it is `some`, and
is `none` precisely when no stored entry has that date. -/
theorem getLast7Days_spec (today : Int) (data : HistoricalData) (l : List DailyStats) :
    (DataStorage.getLast7Days today data).length = 7 ∧
    (GistStorage.getLast7DaysLocal today l).length = 7 ∧
    (∀ j : Fin 7,
      ((DataStorage.getLast7Days today data).getD j none = none →
        ∀ e ∈ data.stats, e.date ≠ today - 6 + (j.val : Int)) ∧
      (∀ e, (DataStorage.getLast7Days today data).getD j none = some e →
        e ∈ data.stats ∧ e.date = today - 6 + (j.val : Int))) ∧
    (∀ j : Fin 7,
      ((GistStorage.getLast7DaysLocal today l).getD j none = none →
        ∀ e ∈ l, e.date ≠ today - 6 + (j.val : Int)) ∧
      (∀ e, (GistStorage.getLast7DaysLocal today l).getD j none = some e →
        e ∈ l ∧ e.date = today - 6 + (j.val : Int))) := by
  have hday : ∀ j : Fin 7, today - (6 - (j.val : Int)) = today - 6 + (j.val : Int) := by
    intro j
    omega
  have hidx : ∀ j : Fin 7,
      (DataStorage.getLast7Days today data).getD j none =
        data.stats.find? (fun s => s.date == today - (6 - (j.val : Int))) := by
    intro j
    unfold DataStorage.getLast7Days
    exact getD_map_range _ _ 7 j.val j.isLt
  have hidx2 : ∀ j : Fin 7,
      (GistStorage.getLast7DaysLocal today l).getD j none =
        l.find? (fun s => s.date == today - (6 - (j.val : Int))) := by
    intro j
    unfold GistStorage.getLast7DaysLocal
    exact getD_map_range _ _ 7 j.val j.isLt
  refine ⟨?_, ?_, ?_, ?_⟩
  · unfold DataStorage.getLast7Days
    rw [List.length_map, List.length_range]
  · unfold GistStorage.getLast7DaysLocal
    rw [List.length_map, List.length_range]
  · intro j
    rw [hidx j]
    constructor
    · intro hnone e he
      have := List.find?_eq_none.mp hnone e he
      rw [← hday j]
      simpa using this
    · intro e hsome
      refine ⟨List.mem_of_find?_eq_some hsome, ?_⟩
      have := List.find?_some hsome
      rw [← hday j]
      simpa using this
  · intro j
    rw [hidx2 j]
    constructor
    · intro hnone e he
      have := List.find?_eq_none.mp hnone e he
      rw [← hday j]
      simpa using this
    · intro e hsome
      refine ⟨List.mem_of_find?_eq_some hsome, ?_⟩
      have := List.find?_some hsome
      rw [← hday j]
      simpa using this

/-- Witness for C9: at a one-entry history, the last slot is that entry. -/
theorem getLast7Days_spec_witness :
    (DataStorage.getLast7Days 6 { lastUpdated := 0, stats := [⟨6, 1, 2, 3, 4⟩] }).getD
        (6 : Fin 7) none = some ⟨6, 1, 2, 3, 4⟩ ∧
    (⟨6, 1, 2, 3, 4⟩ : DailyStats) ∈
      ({ lastUpdated := 0, stats := [⟨6, 1, 2, 3, 4⟩] } : HistoricalData).stats ∧
    (⟨6, 1, 2, 3, 4⟩ : DailyStats).date = 6 - 6 + ((6 : Fin 7).val : Int) :=
  ⟨by decide,
    ((getLast7Days_spec 6 { lastUpdated := 0, stats := [⟨6, 1, 2, 3, 4⟩] } []).2.2.1
      (6 : Fin 7)).2 ⟨6, 1, 2, 3, 4⟩ (by decide)⟩

/-! ## Claim C5 -/

/-- C5: the town browser's displayed list is exactly (a permutation of, i.e.
the same towns as) the fetched towns whose name, mayor or nation contains the
search term case-insensitively and — when a specific nation is selected —
whose nation equals it, and it is ordered by the chosen key: ascending by
name, descending by `balance || 0`, or descending by resident count. -/
theorem townBrowser_filter_sort (towns : List Town)
    (searchTerm selectedNation : String) (k : TownSortKey) :
    List.Perm (filterAndSortTowns towns searchTerm selectedNation k)
      (towns.filter (fun t => townMatchesSearch t searchTerm &&
        (selectedNation == "all" || t.nation == selectedNation))) ∧
    List.Sorted (townSortRel k) (filterAndSortTowns towns searchTerm selectedNation k) := by
  constructor
  · simp only [filterAndSortTowns]
    by_cases hsel : selectedNation = "all"
    · rw [if_neg (by simp [hsel])]
      refine (List.perm_insertionSort _ _).trans ?_
      apply List.Perm.of_eq
      apply List.filter_congr
      intro t _
      simp [hsel]
    · rw [if_pos hsel]
      refine (List.perm_insertionSort _ _).trans ?_
      rw [List.filter_filter]
      apply List.Perm.of_eq
      apply List.filter_congr
      intro t _
      have hfalse : (selectedNation == "all") = false := by
        simpa using hsel
      rw [hfalse]
      simp [Bool.and_comm]
  · exact List.sorted_insertionSort _ _

/-! ## Claim C8 -/

/-- C8: render-time defaults for missing optional fields — `formatBalance`
maps a missing (`undefined`/`null`) balance to `'$0'` and any present balance
to the dollar-prefixed localized value, and the richest-towns list renders
`'Unknown'` for a missing mayor and `0` for a missing balance or a missing
resident array. -/
theorem render_optional_defaults :
    formatBalance none = "$0" ∧
    (∀ b : Int, formatBalance (some b) = "$" ++ toLocaleString b) ∧
    mayorOrUnknown none = "Unknown" ∧
    balanceOrZero none = 0 ∧
    residentsCountOrZero none = 0 :=
  ⟨rfl, fun _ => rfl, rfl, rfl, rfl⟩

/-! ## Claim C6 -/

/-- C6: every failed or non-ok fetch outcome is caught rather than
propagated — after `searchPlayer` (with a non-empty search term) the error is
a non-null message string, `playerData` is `null` and `loading` is `false`;
after `fetchTowns` from the screen's initial state the error is a non-null
message string, the towns arrays are still empty and `loading` is `false`.
Each handler consumes a single fetch outcome: no retry is modelled because
none exists in the code. -/
theorem fetch_failure_is_caught (o1 : FetchResult (List PlayerData))
    (o2 : FetchResult (List Town)) (s : PlayerLookupState)
    (h1 : o1.isFailure) (h2 : o2.isFailure)
    (hterm : jsTrim s.searchTerm ≠ []) :
    ((searchPlayer o1 s).error ≠ none ∧
      (searchPlayer o1 s).playerData = none ∧
      (searchPlayer o1 s).loading = false) ∧
    ((fetchTowns o2 initialTownBrowserState).error ≠ none ∧
      (fetchTowns o2 initialTownBrowserState).towns = [] ∧
      (fetchTowns o2 initialTownBrowserState).loading = false) := by
  constructor
  · cases o1 with
    | thrown e =>
      cases e with
      | typeError msg =>
        by_cases hmsg : msg = "Failed to fetch"
        · simp [searchPlayer, hterm, hmsg]
        · simp [searchPlayer, hterm, hmsg]
      | jsError msg => simp [searchPlayer, hterm]
    | response status body =>
      have hok : ¬ (200 ≤ status ∧ status ≤ 299) := by
        intro hc
        rw [FetchResult.isFailure, FetchResult.isOk] at h1
        simp [hc.1, hc.2] at h1
      by_cases h404 : status = 404
      · simp [searchPlayer, hterm, hok, h404]
      · simp [searchPlayer, hterm, hok, h404]
  · cases o2 with
    | thrown e => simp [fetchTowns, initialTownBrowserState]
    | response status body =>
      have hok : ¬ (200 ≤ status ∧ status ≤ 299) := by
        intro hc
        rw [FetchResult.isFailure, FetchResult.isOk] at h2
        simp [hc.1, hc.2] at h2
      simp [fetchTowns, initialTownBrowserState, hok]

/-- Witness for C6 at a concrete network failure and a concrete 500. -/
theorem fetch_failure_is_caught_witness :
    ((FetchResult.thrown (α := List PlayerData) (.typeError "Failed to fetch")).isFailure ∧
      (FetchResult.response (α := List Town) 500 []).isFailure ∧
      jsTrim ("steve" : String) ≠ []) ∧
    (searchPlayer (.thrown (.typeError "Failed to fetch"))
        { searchTerm := "steve", playerData := none, loading := true,
          error := none, hasSearched := false }).playerData = none :=
  ⟨⟨by decide, by decide, by decide⟩,
    (fetch_failure_is_caught (.thrown (.typeError "Failed to fetch"))
      (.response 500 [])
      { searchTerm := "steve", playerData := none, loading := true,
        error := none, hasSearched := false }
      (by decide) (by decide) (by decide)).1.2.1⟩

/-! ## Claim C7 -/

/-- C7: on mount the server-status screen registers exactly two interval
timers — `fetchServerData` every `5 * 60 * 1000` milliseconds and the clock
update every `1000` milliseconds — and the unmount cleanups clear exactly
those two timers, restoring the previously registered set (fresh handles are
assumed larger than any live handle, as the browser guarantees). -/
theorem serverStatus_interval_lifecycle (s : SchedulerState)
    (h : ∀ t ∈ s.timers, t.id < s.nextId) :
    (mountServerStatus s).2.timers =
      s.timers ++
        [{ id := s.nextId, intervalMs := 5 * 60 * 1000, action := .fetchServerData },
         { id := s.nextId + 1, intervalMs := 1000, action := .updateClock }] ∧
    (unmountServerStatus (mountServerStatus s).1 (mountServerStatus s).2).timers =
      s.timers := by
  have h1 : s.timers.filter (fun t => decide (t.id ≠ s.nextId)) = s.timers := by
    apply List.filter_eq_self.mpr
    intro t ht
    have hlt := h t ht
    simp only [decide_eq_true_eq]
    omega
  have h2 : s.timers.filter (fun t => decide (t.id ≠ s.nextId + 1)) = s.timers := by
    apply List.filter_eq_self.mpr
    intro t ht
    have hlt := h t ht
    simp only [decide_eq_true_eq]
    omega
  constructor
  · simp [mountServerStatus, setIntervalTimer]
  · simp only [unmountServerStatus, mountServerStatus, setIntervalTimer,
      clearIntervalTimer, List.filter_append, h1, h2]
    simp

/-- Witness for C7 at the empty scheduler. -/
theorem serverStatus_interval_lifecycle_witness :
    (∀ t ∈ ({ timers := [], nextId := 0 } : SchedulerState).timers, t.id < 0) ∧
    (unmountServerStatus (mountServerStatus { timers := [], nextId := 0 }).1
      (mountServerStatus { timers := [], nextId := 0 }).2).timers = [] :=
  ⟨by decide,
    (serverStatus_interval_lifecycle { timers := [], nextId := 0 } (by decide)).2⟩
